import Mathlib

/-!
Verification development for the scad-monitor repository.

The repository polls a ticketing site for film-festival screening
availability, tracks per-screening status transitions, notifies on
newly-available transitions, and (in the web UI) detects schedule
conflicts between selected screenings.

This file gives a shallow embedding of the core logic:
  * `src/web_interface.py` `check_conflicts` (pairwise overlap detector),
  * `src/monitor.py` `TicketMonitor.monitor` per-event state machine and cycle,
  * `src/date_utils.py` `is_event_passed`,
  * `src/monitor.py` / `src/scraper_utils.py` `should_monitor_event`,
  * `src/config_utils_py.py` `save_state` / `load_state` (JSON persistence),
and proves the specified properties about these definitions.

Python `datetime` values are modelled as integer timestamps: seconds in the
proleptic Gregorian calendar (`toOrdinal` matches `datetime.date.toordinal`).
Python dictionaries are modelled as association lists with unique keys.
-/

namespace ScadMonitor

/-- Status string literal used by the scraper and monitor. -/
def sAvailable : String := "available"

/-- Status string literal used by the scraper and monitor. -/
def sSoldOut : String := "sold_out"

/-- Status string literal used by the scraper and monitor. -/
def sUnknown : String := "unknown"

/-- Status string literal written by the passed-event branch of `monitor`. -/
def sPassed : String := "passed"

/-- Severity string literal from `check_conflicts`. -/
def sCritical : String := "critical"

/-- Severity string literal from `check_conflicts`. -/
def sWarning : String := "warning"

/-- Severity string literal from `check_conflicts`. -/
def sInfo : String := "info"

/-- EVENT_DURATION_MINUTES from `src/constants.py` line 30. -/
def EVENT_DURATION_MINUTES : Nat := 150

/-- PASSED_EVENT_BUFFER_DAYS from `src/constants.py` line 31. -/
def PASSED_EVENT_BUFFER_DAYS : Nat := 1

/-- Seconds in one day, used to express `timedelta(days=n)` on second-resolution
timestamps. -/
def secondsPerDay : Int := 86400

/-! ## Calendar model

Python `datetime` objects are modelled as second-resolution timestamps in the
proleptic Gregorian calendar, mirroring `datetime.toordinal` arithmetic so that
minute differences between two parsed datetimes are faithful. -/

/-- Gregorian leap-year test, as in Python's `calendar.isleap`. -/
def isLeapYear (y : Nat) : Bool :=
  y % 4 == 0 && (y % 100 != 0 || y % 400 == 0)

/-- Cumulative day count before month `m` (1-based) in a non-leap year. -/
def daysBeforeMonth (m : Nat) : Nat :=
  match m with
  | 1 => 0 | 2 => 31 | 3 => 59 | 4 => 90 | 5 => 120 | 6 => 151
  | 7 => 181 | 8 => 212 | 9 => 243 | 10 => 273 | 11 => 304 | 12 => 334
  | _ => 0

/-- Number of days in month `m` of year `y`. -/
def daysInMonth (y m : Nat) : Nat :=
  match m with
  | 1 => 31 | 2 => if isLeapYear y then 29 else 28 | 3 => 31 | 4 => 30
  | 5 => 31 | 6 => 30 | 7 => 31 | 8 => 31 | 9 => 30 | 10 => 31
  | 11 => 30 | 12 => 31
  | _ => 0

/-- Proleptic Gregorian ordinal of a date, as `datetime.date(y, m, d).toordinal()`:
day 1 is January 1 of year 1. -/
def toOrdinal (y m d : Nat) : Nat :=
  let yp := y - 1
  365 * yp + yp / 4 - yp / 100 + yp / 400
    + daysBeforeMonth m + (if 2 < m && isLeapYear y then 1 else 0) + d

/-- Second-resolution timestamp of a civil datetime. -/
def civilToSecs (y mo d h mi s : Nat) : Int :=
  (((((toOrdinal y mo d) * 24 + h) * 60 + mi) * 60 + s : Nat) : Int)

/-- Numeric value of a decimal digit character, `none` for non-digits. -/
def digitVal (c : Char) : Option Nat :=
  let n := c.toNat
  if 48 ≤ n ∧ n ≤ 57 then some (n - 48) else none

/-- Two-digit decimal number from two digit characters. -/
def read2 (a b : Char) : Option Nat := do
  let x ← digitVal a
  let y ← digitVal b
  pure (x * 10 + y)

/-- Four-digit decimal number from four digit characters. -/
def read4 (a b c d : Char) : Option Nat := do
  let x ← read2 a b
  let y ← read2 c d
  pure (x * 100 + y)

/-- Model of Python `datetime.fromisoformat` restricted to the
`YYYY-MM-DDTHH:MM:SS` shape that `datetime.isoformat()` produces for the
second-resolution datetimes this pipeline stores in the events cache
(`src/scraper_utils.py` line 247). Returns `none` (modelling the `ValueError`
that `check_conflicts` catches) when the shape or any field is invalid. -/
def parseIso (s : String) : Option Int :=
  match s.toList with
  | [a, b, c, d, '-', e, f, '-', g, h, 'T', i, j, ':', k, l, ':', m, n] => do
    let y ← read4 a b c d
    let mo ← read2 e f
    let dy ← read2 g h
    let hh ← read2 i j
    let mi ← read2 k l
    let ss ← read2 m n
    if 1 ≤ y && 1 ≤ mo && mo ≤ 12 && 1 ≤ dy && dy ≤ daysInMonth y mo
        && hh < 24 && mi < 60 && ss < 60 then
      pure (civilToSecs y mo dy hh mi ss)
    else none
  | _ => none

/-! ## Overlap detector (`check_conflicts`, `src/web_interface.py` lines 183-252)

Event dictionaries from the web cache are modelled with the fields
`check_conflicts` reads (`id`, `date`); `title` and `status` are kept as
representative payload, the remaining display-only keys are elided. -/

/-- Event record as seen by the web interface; `date` holds the ISO string
from the cache, absent when the scraper could not parse a date. -/
structure WebEvent where
  id : String
  title : String
  date : Option String
  status : String
deriving DecidableEq

/-- Conflict record emitted by `check_conflicts`. -/
structure Conflict where
  event1 : WebEvent
  event2 : WebEvent
  severity : String
  time_diff_minutes : Nat
deriving DecidableEq

/-- Model of `event_map = {e['id']: e for e in events}` followed by
`event_map.get(i)`: the last record with a given id wins, `none` if absent. -/
def eventMapLookup (events : List WebEvent) (i : String) : Option WebEvent :=
  events.foldl (fun acc e => if e.id == i then some e else acc) none

/-- Position pairs `(all_selected[i], all_selected[j])` for `i < j`, as produced
by the nested loops `for i, id1 in enumerate(all_selected): for id2 in
all_selected[i + 1:]`. -/
def pairsOf : List String → List (String × String)
  | [] => []
  | x :: xs => xs.map (fun y => (x, y)) ++ pairsOf xs

/-- Severity classification from `check_conflicts` lines 230-235: `critical`
when both ids are purchased, `warning` when at least one is, `info` otherwise,
in that priority order. -/
def severityOf (purchasedIds : List String) (id1 id2 : String) : String :=
  if purchasedIds.contains id1 && purchasedIds.contains id2 then sCritical
  else if purchasedIds.contains id1 || purchasedIds.contains id2 then sWarning
  else sInfo

/-- Body of one iteration of the pair loop in `check_conflicts` (lines
208-249). Each `continue` (missing record, falsy date, `ValueError` from
`fromisoformat`) yields `[]`; a qualifying pair yields one conflict. The
Python guard `time_diff < EVENT_DURATION_MINUTES` compares the float
`abs(total_seconds) / 60`; on second-resolution timestamps this holds exactly
when the second difference is below `EVENT_DURATION_MINUTES * 60`, which is
how it is written here. `int(time_diff)` is truncation of a non-negative
float, i.e. natural division by 60. -/
def checkPair (lookup : String → Option WebEvent) (purchasedIds : List String)
    (id1 id2 : String) : List Conflict :=
  match lookup id1, lookup id2 with
  | some event1, some event2 =>
    match event1.date, event2.date with
    | some date1, some date2 =>
      if date1 == "" || date2 == "" then []
      else
        match parseIso date1, parseIso date2 with
        | some dt1, some dt2 =>
          let timeDiffSecs := (dt1 - dt2).natAbs
          if timeDiffSecs < EVENT_DURATION_MINUTES * 60 then
            [{ event1 := event1, event2 := event2,
               severity := severityOf purchasedIds id1 id2,
               time_diff_minutes := timeDiffSecs / 60 }]
          else []
        | _, _ => []
    | _, _ => []
  | _, _ => []

/-- Model of `check_conflicts(events, monitored_ids, purchased_ids)`
(`src/web_interface.py` lines 183-252): builds the id lookup, forms
`all_selected = monitored_ids + purchased_ids`, and collects the conflicts of
every position pair in order. -/
def check_conflicts (events : List WebEvent) (monitoredIds purchasedIds : List String) :
    List Conflict :=
  let lookup := eventMapLookup events
  let allSelected := monitoredIds ++ purchasedIds
  (pairsOf allSelected).flatMap (fun p => checkPair lookup purchasedIds p.1 p.2)

/-! ## Availability state machine (`src/monitor.py` `TicketMonitor.monitor`)

Monitor-side event records carry the parsed `datetime` object directly
(`src/monitor.py` line 299); it is modelled as an optional timestamp. -/

/-- Screening record as produced by `parse_festival_page` in `src/monitor.py`. -/
structure Event where
  id : String
  title : String
  url : String
  datetime_text : String
  date : Option Int
  status : String
deriving DecidableEq

/-- Persisted per-screening state dictionary. `monitor` writes two shapes:
the passed marker `{'status': 'passed', 'marked_passed': True}` (line 504)
and the full record of line 534; the keys missing from the passed marker are
modelled as `Option` fields. -/
structure StoredState where
  status : String
  marked_passed : Bool
  title : Option String
  datetime : Option String
  last_checked : Option String
deriving DecidableEq

/-- Notification events raised by `notify(event, is_new)` (`src/monitor.py`
lines 407-424): `newly` for the `is_new=True` "just became available" alert,
`still` for the `is_new=False` repeat-available alert. -/
inductive Notif where
  | newly (eventId : String)
  | still (eventId : String)
deriving DecidableEq

/-- Model of `is_event_passed` (`src/date_utils.py` lines 59-91, identical to
the inline copy in `src/monitor.py` lines 211-218): false for an absent date,
otherwise true exactly when the event date is before `now` minus the
`PASSED_EVENT_BUFFER_DAYS` buffer. -/
def isEventPassed (eventDate : Option Int) (now : Int) : Bool :=
  match eventDate with
  | none => false
  | some d => d < now - (PASSED_EVENT_BUFFER_DAYS : Int) * secondsPerDay

/-- Python prefix test on character lists, modelling the start of substring
search. -/
def listPrefixOf : List Char → List Char → Bool
  | [], _ => true
  | _ :: _, [] => false
  | c :: cs, x :: xs => c == x && listPrefixOf cs xs

/-- Python substring test `needle in hay` on character lists. -/
def listInfixOf (needle : List Char) : List Char → Bool
  | [] => listPrefixOf needle []
  | x :: xs => listPrefixOf needle (x :: xs) || listInfixOf needle xs

/-- Python `str.lower()` on the character list of a string (ASCII case fold,
which covers the ids and Latin titles this site serves). -/
def lowerStr (s : String) : List Char :=
  s.toList.map Char.toLower

/-- Model of `should_monitor_event` (`src/monitor.py` lines 312-323 and
`src/scraper_utils.py` lines 293-322, identical logic): a record matches when
some monitored entry is a case-insensitive substring of its id or title. -/
def shouldMonitorEvent (monitoredEvents : List String) (e : Event) : Bool :=
  monitoredEvents.any fun m =>
    listInfixOf (lowerStr m) (lowerStr e.id) || listInfixOf (lowerStr m) (lowerStr e.title)

/-- State dictionary entry written for a passed event (`src/monitor.py`
line 504). -/
def passedEntry : StoredState :=
  { status := sPassed, marked_passed := true,
    title := none, datetime := none, last_checked := none }

/-- Membership test `previous_status in ['sold_out', 'unknown', None]` from
`src/monitor.py` line 524. -/
def prevStatusNewly (ps : Option String) : Bool :=
  ps == some sSoldOut || ps == some sUnknown || ps == none

/-- Per-event body of the loop in `TicketMonitor.monitor` (`src/monitor.py`
lines 496-540): given the stored state for the event's id (`none` if never
seen) and the fresh record, returns the notifications sent and the state
write performed (`none` when the branch performs no dictionary assignment,
i.e. the already-marked-passed case). `now` is `datetime.now()` and `nowIso`
its `isoformat()` string. Print statements and the stats counters are elided
as pure logging. -/
def processEvent (notifyAll : Bool) (now : Int) (nowIso : String)
    (prev : Option StoredState) (e : Event) : List Notif × Option StoredState :=
  if e.date.isSome && isEventPassed e.date now then
    match prev with
    | none => ([], some passedEntry)
    | some p => if p.marked_passed then ([], none) else ([], some passedEntry)
  else
    let previousStatus := prev.map (·.status)
    let notifs : List Notif :=
      if e.status == sAvailable then
        if prevStatusNewly previousStatus then [Notif.newly e.id]
        else if notifyAll then [Notif.still e.id]
        else []
      else []
    (notifs,
     some { status := e.status, marked_passed := false, title := some e.title,
            datetime := some e.datetime_text, last_checked := some nowIso })

/-- Lookup in the `previous_states` dictionary, modelled as an association
list: `previous_states.get(event_id)`. -/
def lookupState (l : List (String × StoredState)) (k : String) : Option StoredState :=
  (l.find? (fun p => p.1 == k)).map (·.2)

/-- Dictionary assignment `previous_states[event_id] = v`: replaces the
binding if the key is present, appends it otherwise. -/
def setState : List (String × StoredState) → String → StoredState →
    List (String × StoredState)
  | [], k, v => [(k, v)]
  | (k', v') :: rest, k, v =>
    if k' == k then (k, v) :: rest else (k', v') :: setState rest k v

/-- The `for event in monitored_found` loop of `TicketMonitor.monitor`:
threads the state dictionary through `processEvent` and concatenates the
notifications in loop order. -/
def runEvents (notifyAll : Bool) (now : Int) (nowIso : String)
    (states : List (String × StoredState)) :
    List Event → List (String × StoredState) × List Notif
  | [] => (states, [])
  | e :: rest =>
    let step := processEvent notifyAll now nowIso (lookupState states e.id) e
    let states' := match step.2 with
      | some v => setState states e.id v
      | none => states
    let tail := runEvents notifyAll now nowIso states' rest
    (tail.1, step.1 ++ tail.2)

/-- Result of one monitoring cycle: the new `previous_states` dictionary, the
notifications sent, and whether `save_state` was invoked. -/
structure CycleResult where
  states : List (String × StoredState)
  notifs : List Notif
  saved : Bool
deriving DecidableEq

/-- Model of one call to `TicketMonitor.monitor` (`src/monitor.py` lines
454-560) after config reload: `allEvents` is the result of
`parse_festival_page()` (the empty list both when the page has no events and
when the fetch failed, lines 222-224); when it is empty the method returns at
line 483 before touching state or saving. Otherwise the monitored records are
filtered, processed in order, and `save_state` runs (line 542). Stats and test
notifications are elided as logging. -/
def monitorCycle (monitoredEvents : List String) (notifyAll : Bool)
    (states0 : List (String × StoredState)) (allEvents : List Event)
    (now : Int) (nowIso : String) : CycleResult :=
  if allEvents.isEmpty then
    { states := states0, notifs := [], saved := false }
  else
    let monitoredFound := allEvents.filter (shouldMonitorEvent monitoredEvents)
    let r := runEvents notifyAll now nowIso states0 monitoredFound
    { states := r.1, notifs := r.2, saved := true }

/-! ## State persistence (`src/config_utils_py.py` lines 154-211)

`save_state` writes `json.dump(state_data, f, indent=2)` and `load_state`
reads it back with `json.load(f)`. The file contents are modelled at
character level. The mapping type is the spec's `MonitorState` entry
(status, last_checked, marked_passed) keyed by screening id, together with
the `dates` mapping: the two top-level keys `save_state`'s caller passes
(`src/monitor.py` lines 108-118). The printer emits the token stream
`json.dump` produces for such a dictionary: brace-delimited `"key": value`
pairs in insertion order, strings quoted with `"` and `\` escaped and
control characters escaped (uniformly as `\u00XX`, one of the escape
spellings the `json` module accepts); the inter-token whitespace `indent=2`
inserts does not affect the parsed value and is elided. The printer is
written in continuation style (each function takes the stream that follows).
The reader models `json.load` restricted to this grammar, with a decode
failure falling back to the empty state as in `load_state`. -/

/-- Spec §3 `MonitorState` entry: the value type of the persisted mapping. -/
structure PersistEntry where
  status : String
  last_checked : String
  marked_passed : Bool
deriving DecidableEq

/-- Persisted state file payload: the `states` and `dates` dictionaries that
`TicketMonitor.save_state` passes to `json.dump`. -/
structure StateData where
  states : List (String × PersistEntry)
  dates : List (String × String)
deriving DecidableEq

/-- Hexadecimal digit character for a value below 16. -/
def hexDigitChar (n : Nat) : Char :=
  match n with
  | 0 => '0' | 1 => '1' | 2 => '2' | 3 => '3' | 4 => '4'
  | 5 => '5' | 6 => '6' | 7 => '7' | 8 => '8' | 9 => '9'
  | 10 => 'a' | 11 => 'b' | 12 => 'c' | 13 => 'd' | 14 => 'e'
  | _ => 'f'

/-- Value of a hexadecimal digit character, in any letter case. -/
def hexVal (c : Char) : Option Nat :=
  let n := c.toNat
  if 48 ≤ n ∧ n ≤ 57 then some (n - 48)
  else if 97 ≤ n ∧ n ≤ 102 then some (n - 87)
  else if 65 ≤ n ∧ n ≤ 70 then some (n - 55)
  else none

/-- JSON escape of one character: `"` and `\` get a backslash escape, control
characters are written `\u00XX`, everything else is literal. -/
def escapeChar (c : Char) : List Char :=
  if c = '"' then ['\\', '"']
  else if c = '\\' then ['\\', '\\']
  else if c.toNat < 32 then
    ['\\', 'u', '0', '0', hexDigitChar (c.toNat / 16), hexDigitChar (c.toNat % 16)]
  else [c]

/-- JSON escape of a string body, prepended to the following stream. -/
def escapeList : List Char → List Char → List Char
  | [], rest => rest
  | c :: cs, rest => escapeChar c ++ escapeList cs rest

/-- JSON string literal for `s`, prepended to the following stream. -/
def quoteStrD (s : String) (rest : List Char) : List Char :=
  '"' :: escapeList s.toList ('"' :: rest)

/-- Character list of the JSON literal `true`. -/
def litTrue : List Char := ['t', 'r', 'u', 'e']

/-- Character list of the JSON literal `false`. -/
def litFalse : List Char := ['f', 'a', 'l', 's', 'e']

/-- JSON boolean literal, prepended to the following stream. -/
def dumpBoolD (b : Bool) (rest : List Char) : List Char :=
  if b then litTrue ++ rest else litFalse ++ rest

/-- Key string used in the persisted entry objects. -/
def kStatus : String := "status"

/-- Key string used in the persisted entry objects. -/
def kLastChecked : String := "last_checked"

/-- Key string used in the persisted entry objects. -/
def kMarkedPassed : String := "marked_passed"

/-- Top-level key of the persisted state file. -/
def kStates : String := "states"

/-- Top-level key of the persisted state file. -/
def kDates : String := "dates"

/-- JSON object for one `MonitorState` entry, keys in insertion order. -/
def dumpEntryD (e : PersistEntry) (rest : List Char) : List Char :=
  '\x7b' :: quoteStrD kStatus (':' :: quoteStrD e.status
    (',' :: quoteStrD kLastChecked (':' :: quoteStrD e.last_checked
    (',' :: quoteStrD kMarkedPassed (':' :: dumpBoolD e.marked_passed
    ('\x7d' :: rest))))))

/-- Comma-separated `"key": value` pairs of a JSON object, terminated by the
closing brace, prepended to the following stream. -/
def dumpPairsD (dumpVal : α → List Char → List Char) :
    List (String × α) → List Char → List Char
  | [], rest => '\x7d' :: rest
  | (k, v) :: ps, rest =>
    quoteStrD k (':' :: dumpVal v
      (match ps with
       | [] => '\x7d' :: rest
       | _ :: _ => ',' :: dumpPairsD dumpVal ps rest))

/-- JSON object for a dictionary, prepended to the following stream. -/
def dumpObjD (dumpVal : α → List Char → List Char) (l : List (String × α))
    (rest : List Char) : List Char :=
  '\x7b' :: dumpPairsD dumpVal l rest

/-- Character stream `json.dump({'states': ..., 'dates': ...}, f)` writes,
modulo the elided `indent=2` whitespace. -/
def dumpStateD (sd : StateData) (rest : List Char) : List Char :=
  '\x7b' :: quoteStrD kStates (':' :: dumpObjD dumpEntryD sd.states
    (',' :: quoteStrD kDates (':' :: dumpObjD quoteStrD sd.dates
    ('\x7d' :: rest))))

/-- Model of `save_state(state_data)`: the string written to the state file. -/
def saveStateStr (sd : StateData) : String :=
  String.mk (dumpStateD sd [])

/-- JSON string-body reader: consumes characters up to the closing quote,
undoing `escapeChar`. Returns the decoded body and the remaining input. -/
def parseStrBody : List Char → Option (List Char × List Char)
  | [] => none
  | c :: rest =>
    if c = '"' then some ([], rest)
    else if c = '\\' then
      match rest with
      | [] => none
      | e :: rest2 =>
        if e = '"' then (parseStrBody rest2).map (fun p => ('"' :: p.1, p.2))
        else if e = '\\' then (parseStrBody rest2).map (fun p => ('\\' :: p.1, p.2))
        else if e = 'u' then
          match rest2 with
          | h1 :: h2 :: h3 :: h4 :: rest3 =>
            match hexVal h1, hexVal h2, hexVal h3, hexVal h4 with
            | some a, some b, some c2, some d =>
              (parseStrBody rest3).map
                (fun p => (Char.ofNat (((a * 16 + b) * 16 + c2) * 16 + d) :: p.1, p.2))
            | _, _, _, _ => none
          | _ => none
        else none
    else (parseStrBody rest).map (fun p => (c :: p.1, p.2))

/-- JSON string-literal reader. -/
def parseQuoted (l : List Char) : Option (String × List Char) :=
  match l with
  | [] => none
  | c :: rest =>
    if c = '"' then (parseStrBody rest).map (fun p => (String.mk p.1, p.2))
    else none

/-- Consume one expected character. -/
def expectChar (c : Char) : List Char → Option (List Char)
  | [] => none
  | x :: rest => if x = c then some rest else none

/-- Consume an expected literal character sequence. -/
def expectLit : List Char → List Char → Option (List Char)
  | [], l => some l
  | _ :: _, [] => none
  | c :: cs, x :: xs => if x = c then expectLit cs xs else none

/-- JSON boolean reader. -/
def parseBool (l : List Char) : Option (Bool × List Char) :=
  match expectLit litTrue l with
  | some rest => some (true, rest)
  | none =>
    match expectLit litFalse l with
    | some rest => some (false, rest)
    | none => none

/-- Reader for a `"key":` prelude with the given expected key. -/
def parseKey (key : String) (l : List Char) : Option (List Char) := do
  let (k, l1) ← parseQuoted l
  if k = key then expectChar ':' l1 else none

/-- Reader for one persisted `MonitorState` entry object. -/
def parseEntry (l : List Char) : Option (PersistEntry × List Char) := do
  let l ← expectChar '\x7b' l
  let l ← parseKey kStatus l
  let (st, l) ← parseQuoted l
  let l ← expectChar ',' l
  let l ← parseKey kLastChecked l
  let (lc, l) ← parseQuoted l
  let l ← expectChar ',' l
  let l ← parseKey kMarkedPassed l
  let (mp, l) ← parseBool l
  let l ← expectChar '\x7d' l
  pure (⟨st, lc, mp⟩, l)

/-- Reader for the non-empty pair list of a JSON object, consuming the
closing brace. `fuel` bounds the number of pairs. -/
def parsePairs (parseVal : List Char → Option (α × List Char)) :
    Nat → List Char → Option (List (String × α) × List Char)
  | 0, _ => none
  | fuel + 1, l => do
    let (k, l1) ← parseQuoted l
    let l2 ← expectChar ':' l1
    let (v, l3) ← parseVal l2
    match l3 with
    | [] => none
    | c :: l4 =>
      if c = ',' then
        (parsePairs parseVal fuel l4).map (fun p => ((k, v) :: p.1, p.2))
      else if c = '\x7d' then some ([(k, v)], l4)
      else none

/-- Reader for a JSON object as a dictionary. -/
def parseObj (parseVal : List Char → Option (α × List Char)) (fuel : Nat)
    (l : List Char) : Option (List (String × α) × List Char) := do
  let l1 ← expectChar '\x7b' l
  match l1 with
  | [] => none
  | c :: l2 =>
    if c = '\x7d' then some (([] : List (String × α)), l2)
    else parsePairs parseVal fuel (c :: l2)

/-- Reader for the whole persisted state file. -/
def parseStateData (fuel : Nat) (l : List Char) : Option (StateData × List Char) := do
  let l ← expectChar '\x7b' l
  let l ← parseKey kStates l
  let (sts, l) ← parseObj parseEntry fuel l
  let l ← expectChar ',' l
  let l ← parseKey kDates l
  let (dts, l) ← parseObj parseQuoted fuel l
  let l ← expectChar '\x7d' l
  pure (⟨sts, dts⟩, l)

/-- Empty state, the `{'states': {}, 'dates': {}}` default `load_state`
returns when the file is missing or malformed. -/
def emptyStateData : StateData := ⟨[], []⟩

/-- Model of `load_state()` reading a state file with the given contents:
parse the JSON text, falling back to the empty state on a decode error. -/
def loadStateStr (s : String) : StateData :=
  match parseStateData s.toList.length s.toList with
  | some (sd, []) => sd
  | _ => emptyStateData

/-! ## Substring lemmas -/

theorem listPrefixOf_iff {l₁ l₂ : List Char} : listPrefixOf l₁ l₂ = true ↔ l₁ <+: l₂ := by
  induction l₁ generalizing l₂ with
  | nil => simp [listPrefixOf]
  | cons c cs ih =>
    cases l₂ with
    | nil => simp [listPrefixOf]
    | cons x xs => simp [listPrefixOf, List.cons_prefix_cons, ih]

theorem listInfixOf_iff {n l : List Char} : listInfixOf n l = true ↔ n <:+: l := by
  induction l with
  | nil => cases n <;> simp [listInfixOf, listPrefixOf]
  | cons x xs ih =>
    rw [List.infix_cons_iff]
    simp [listInfixOf, listPrefixOf_iff, ih]

/-- C10: a screening record is selected for availability tracking exactly when
some entry of the monitored-events list is a case-insensitive substring of the
record's id or of its title; exact id membership is not required. -/
theorem monitor_selection_iff (mons : List String) (e : Event) :
    shouldMonitorEvent mons e = true ↔
      ∃ m ∈ mons, lowerStr m <:+: lowerStr e.id ∨ lowerStr m <:+: lowerStr e.title := by
  simp [shouldMonitorEvent, List.any_eq_true, listInfixOf_iff]

/-- C7: a cycle whose fetch yields no records returns at once: the state
mapping is untouched, no notification is sent, and no save is performed. -/
theorem empty_fetch_preserves_state (mons : List String) (notifyAll : Bool)
    (states0 : List (String × StoredState)) (now : Int) (iso : String) :
    monitorCycle mons notifyAll states0 [] now iso =
      { states := states0, notifs := [], saved := false } := rfl

/-- C1: for a non-passed record, the newly-available notification is emitted
exactly when the current status is `available` and the stored previous status
is `sold_out`, `unknown`, or absent; on a subsequent still-available poll it
does not re-fire — nothing is sent with `notify_all_available` off, and the
repeat-available notification is sent with it on. -/
theorem newly_available_notification_edge
    (notifyAll : Bool) (now : Int) (iso : String)
    (prev : Option StoredState) (e : Event)
    (hnp : isEventPassed e.date now = false) :
    ((Notif.newly e.id ∈ (processEvent notifyAll now iso prev e).1) ↔
      (e.status = sAvailable ∧ prevStatusNewly (prev.map (·.status)) = true)) ∧
    (e.status = sAvailable →
      ∀ (e2 : Event) (now2 : Int) (iso2 : String), e2.status = sAvailable →
        isEventPassed e2.date now2 = false →
        (processEvent false now2 iso2 (processEvent notifyAll now iso prev e).2 e2).1 = [] ∧
        (processEvent true now2 iso2 (processEvent notifyAll now iso prev e).2 e2).1
          = [Notif.still e2.id]) := by
  have hcond : (e.date.isSome && isEventPassed e.date now) = false := by
    simp [hnp]
  constructor
  · by_cases hs : e.status = sAvailable
    · by_cases hn : prevStatusNewly (prev.map (·.status)) = true
      · simp [processEvent, hcond, hs, hn]
      · cases notifyAll <;> simp [processEvent, hcond, hs, hn]
    · simp [processEvent, hcond, hs]
  · intro hs e2 now2 iso2 hs2 hnp2
    have hcond2 : (e2.date.isSome && isEventPassed e2.date now2) = false := by
      simp [hnp2]
    have h2 : (processEvent notifyAll now iso prev e).2 =
        some { status := e.status, marked_passed := false, title := some e.title,
               datetime := some e.datetime_text, last_checked := some iso } := by
      simp [processEvent, hcond]
    rw [h2]
    have hpn : prevStatusNewly (some e.status) = false := by
      rw [hs]; decide
    constructor <;> simp [processEvent, hcond2, hs2, hpn]

/-- C4: a monitored screening whose parsed start time is more than the
1-day buffer before the current time transitions to the passed entry exactly
once with no notification; with the passed entry already stored the step is a
no-op with no notification; and the branch performs no availability
comparison — the result does not depend on the record's status. -/
theorem passed_event_terminal
    (notifyAll : Bool) (now : Int) (iso : String) (prev : Option StoredState)
    (e : Event) (d : Int) (hd : e.date = some d)
    (hpast : d < now - (PASSED_EVENT_BUFFER_DAYS : Int) * secondsPerDay) :
    ((∀ p, prev = some p → p.marked_passed = false) →
        processEvent notifyAll now iso prev e = ([], some passedEntry)) ∧
    processEvent notifyAll now iso (some passedEntry) e = ([], none) ∧
    (∀ s, processEvent notifyAll now iso prev { e with status := s }
        = processEvent notifyAll now iso prev e) := by
  have hp : isEventPassed e.date now = true := by
    simp [isEventPassed, hd]
    exact hpast
  have hcond : (e.date.isSome && isEventPassed e.date now) = true := by
    rw [hd] at hp ⊢
    simp [hp]
  refine ⟨?_, ?_, ?_⟩
  · intro hprev
    cases prev with
    | none => simp [processEvent, hcond]
    | some p =>
      have hmp := hprev p rfl
      simp [processEvent, hcond, hmp]
  · simp [processEvent, hcond, passedEntry]
  · intro s
    have hcond' : ((({ e with status := s } : Event).date).isSome
        && isEventPassed ({ e with status := s } : Event).date now) = true := hcond
    cases prev with
    | none => simp [processEvent, hcond, hcond']
    | some p => simp [processEvent, hcond, hcond']

/-- Concrete stored state with a `sold_out` previous status, used in witnesses. -/
def wPrevSold : StoredState :=
  { status := sSoldOut, marked_passed := false,
    title := none, datetime := none, last_checked := none }

/-- Concrete available screening record with no parsed date, used in witnesses. -/
def wAvail : Event :=
  { id := "10/20", title := "Great Film", url := "u",
    datetime_text := "Oct 25 7pm", date := none, status := sAvailable }

/-- Witness for C1: at a concrete sold_out to available edge the alert fires,
and on the next still-available poll nothing fires with the flag off and the
repeat-available alert fires with it on. -/
theorem newly_available_notification_edge_witness :
    Notif.newly wAvail.id ∈ (processEvent false 0 "t0" (some wPrevSold) wAvail).1 ∧
    (processEvent false 1 "t1" (processEvent false 0 "t0" (some wPrevSold) wAvail).2 wAvail).1
      = [] ∧
    (processEvent true 1 "t1" (processEvent false 0 "t0" (some wPrevSold) wAvail).2 wAvail).1
      = [Notif.still wAvail.id] := by
  have h := newly_available_notification_edge false 0 "t0" (some wPrevSold) wAvail (by decide)
  exact ⟨(h.1).mpr (by decide),
    (h.2 (by decide) wAvail 1 "t1" (by decide) (by decide)).1,
    (h.2 (by decide) wAvail 1 "t1" (by decide) (by decide)).2⟩

/-- Concrete available screening record whose date is long past, used in
witnesses. -/
def wOldEvent : Event :=
  { id := "10/21", title := "Old Film", url := "u",
    datetime_text := "Oct 1", date := some 0, status := sAvailable }

/-- Witness for C4: a concrete long-passed screening is marked passed once
with no notification, and a later poll with the passed entry stored is a
no-op. -/
theorem passed_event_terminal_witness :
    processEvent false (3 * 86400) "t0" none wOldEvent = ([], some passedEntry) ∧
    processEvent false (3 * 86400) "t0" (some passedEntry) wOldEvent = ([], none) := by
  have h := passed_event_terminal false (3 * 86400) "t0" none wOldEvent 0 rfl (by decide)
  have h2 := passed_event_terminal false (3 * 86400) "t0" (some passedEntry) wOldEvent 0 rfl
    (by decide)
  exact ⟨h.1 (fun p hp => by cases hp), h2.2.1⟩

/-! ## Overlap detector lemmas -/

theorem foldl_lookup_id {i : String} {e : WebEvent} (events : List WebEvent) :
    ∀ acc : Option WebEvent, (∀ e', acc = some e' → e'.id = i) →
      events.foldl (fun acc e => if e.id == i then some e else acc) acc = some e →
      e.id = i := by
  induction events with
  | nil =>
    intro acc hacc h
    exact hacc e h
  | cons x xs ih =>
    intro acc hacc h
    rw [List.foldl_cons] at h
    exact ih (if (x.id == i) = true then some x else acc)
      (fun e' he' => by
        by_cases hxi : (x.id == i) = true
        · rw [if_pos hxi] at he'
          cases he'
          exact eq_of_beq hxi
        · rw [if_neg hxi] at he'
          exact hacc e' he') h

theorem eventMapLookup_id {events : List WebEvent} {i : String} {e : WebEvent}
    (h : eventMapLookup events i = some e) : e.id = i :=
  foldl_lookup_id events none (fun e' h' => by cases h') h

theorem mem_checkPair {lookup : String → Option WebEvent} {purs : List String}
    {x y : String} {c : Conflict} (hc : c ∈ checkPair lookup purs x y) :
    lookup x = some c.event1 ∧ lookup y = some c.event2 ∧
    c.severity = severityOf purs x y ∧
    ∃ s1 s2 t1 t2, c.event1.date = some s1 ∧ c.event2.date = some s2 ∧
      s1 ≠ "" ∧ s2 ≠ "" ∧
      parseIso s1 = some t1 ∧ parseIso s2 = some t2 ∧
      (t1 - t2).natAbs < EVENT_DURATION_MINUTES * 60 ∧
      c.time_diff_minutes = (t1 - t2).natAbs / 60 := by
  unfold checkPair at hc
  split at hc
  next e1 e2 h1 h2 =>
    split at hc
    next s1 s2 hd1 hd2 =>
      split at hc
      next => simp at hc
      next hemp =>
        have hne : s1 ≠ "" ∧ s2 ≠ "" := by
          constructor <;> (intro h0; apply hemp; simp [h0])
        dsimp only [] at hc
        split at hc
        next t1 t2 hp1 hp2 =>
          split at hc
          next hlt =>
            rcases List.mem_singleton.mp hc with rfl
            exact ⟨h1, h2, rfl, s1, s2, t1, t2, hd1, hd2, hne.1, hne.2, hp1, hp2, hlt, rfl⟩
          next => simp at hc
        next => simp at hc
    next => simp at hc
  next => simp at hc

theorem checkPair_eval {lookup : String → Option WebEvent} {purs : List String}
    {x y : String} {e1 e2 : WebEvent} {s1 s2 : String} {t1 t2 : Int}
    (h1 : lookup x = some e1) (h2 : lookup y = some e2)
    (hd1 : e1.date = some s1) (hd2 : e2.date = some s2)
    (hn1 : s1 ≠ "") (hn2 : s2 ≠ "")
    (hp1 : parseIso s1 = some t1) (hp2 : parseIso s2 = some t2) :
    checkPair lookup purs x y =
      if (t1 - t2).natAbs < EVENT_DURATION_MINUTES * 60 then
        [{ event1 := e1, event2 := e2, severity := severityOf purs x y,
           time_diff_minutes := (t1 - t2).natAbs / 60 }]
      else [] := by
  unfold checkPair
  simp [h1, h2, hd1, hd2, hn1, hn2, hp1, hp2]

theorem mem_check_conflicts {events : List WebEvent} {mons purs : List String}
    {c : Conflict} (hc : c ∈ check_conflicts events mons purs) :
    ∃ p ∈ pairsOf (mons ++ purs),
      c ∈ checkPair (eventMapLookup events) purs p.1 p.2 := by
  unfold check_conflicts at hc
  exact List.mem_flatMap.mp hc

theorem pairsOf_sub {l : List String} {p : String × String} (h : p ∈ pairsOf l) :
    p.1 ∈ l ∧ p.2 ∈ l := by
  induction l with
  | nil => simp [pairsOf] at h
  | cons x xs ih =>
    rw [pairsOf, List.mem_append] at h
    rcases h with h | h
    · rcases List.mem_map.mp h with ⟨y, hy, rfl⟩
      exact ⟨List.mem_cons_self x xs, List.mem_cons_of_mem _ hy⟩
    · have := ih h
      exact ⟨List.mem_cons_of_mem _ this.1, List.mem_cons_of_mem _ this.2⟩

theorem pairsOf_total {l : List String} {a b : String} (hab : a ≠ b)
    (ha : a ∈ l) (hb : b ∈ l) :
    (a, b) ∈ pairsOf l ∨ (b, a) ∈ pairsOf l := by
  induction l with
  | nil => cases ha
  | cons x xs ih =>
    rcases List.mem_cons.mp ha with rfl | ha'
    · have hb' : b ∈ xs := by
        rcases List.mem_cons.mp hb with rfl | h
        · exact absurd rfl hab
        · exact h
      left
      rw [pairsOf, List.mem_append]
      exact Or.inl (List.mem_map.mpr ⟨b, hb', rfl⟩)
    · rcases List.mem_cons.mp hb with rfl | hb'
      · right
        rw [pairsOf, List.mem_append]
        exact Or.inl (List.mem_map.mpr ⟨a, ha', rfl⟩)
      · rcases ih ha' hb' with h | h
        · left
          rw [pairsOf, List.mem_append]
          exact Or.inr h
        · right
          rw [pairsOf, List.mem_append]
          exact Or.inr h

/-- Unordered id match of a conflict against a pair of screening ids. -/
def conflictPairs (c : Conflict) (a b : String) : Prop :=
  (c.event1.id = a ∧ c.event2.id = b) ∨ (c.event1.id = b ∧ c.event2.id = a)

instance (c : Conflict) (a b : String) : Decidable (conflictPairs c a b) := by
  unfold conflictPairs
  infer_instance

theorem natAbs_sub_comm (a b : Int) : (a - b).natAbs = (b - a).natAbs := by
  rw [← Int.natAbs_neg (a - b), neg_sub]

theorem conflict_pair_data {events : List WebEvent} {mons purs : List String}
    {a b : String} {e1 e2 : WebEvent} {s1 s2 : String} {t1 t2 : Int} {c : Conflict}
    (h1 : eventMapLookup events a = some e1) (h2 : eventMapLookup events b = some e2)
    (hd1 : e1.date = some s1) (hd2 : e2.date = some s2)
    (hp1 : parseIso s1 = some t1) (hp2 : parseIso s2 = some t2)
    (hc : c ∈ check_conflicts events mons purs) (hcp : conflictPairs c a b) :
    (t1 - t2).natAbs < EVENT_DURATION_MINUTES * 60 ∧
    c.time_diff_minutes = (t1 - t2).natAbs / 60 := by
  obtain ⟨p, _, hcp'⟩ := mem_check_conflicts hc
  obtain ⟨hl1, hl2, _, s1', s2', t1', t2', hcd1, hcd2, _, _, hcp1, hcp2, hlt, htd⟩ :=
    mem_checkPair hcp'
  have hid1 : c.event1.id = p.1 := eventMapLookup_id hl1
  have hid2 : c.event2.id = p.2 := eventMapLookup_id hl2
  rcases hcp with ⟨hea, heb⟩ | ⟨hea, heb⟩
  · have hpa : p.1 = a := hid1 ▸ hea
    have hpb : p.2 = b := hid2 ▸ heb
    rw [hpa] at hl1
    rw [hpb] at hl2
    have he1 : c.event1 = e1 := by rw [hl1] at h1; exact Option.some.inj h1
    have he2 : c.event2 = e2 := by rw [hl2] at h2; exact Option.some.inj h2
    rw [he1] at hcd1
    rw [he2] at hcd2
    have hs1 : s1' = s1 := Option.some.inj (hcd1.symm.trans hd1)
    have hs2 : s2' = s2 := Option.some.inj (hcd2.symm.trans hd2)
    rw [hs1] at hcp1
    rw [hs2] at hcp2
    have ht1 : t1' = t1 := Option.some.inj (hcp1.symm.trans hp1)
    have ht2 : t2' = t2 := Option.some.inj (hcp2.symm.trans hp2)
    rw [ht1, ht2] at hlt htd
    exact ⟨hlt, htd⟩
  · have hpa : p.1 = b := hid1 ▸ hea
    have hpb : p.2 = a := hid2 ▸ heb
    rw [hpa] at hl1
    rw [hpb] at hl2
    have he1 : c.event1 = e2 := by rw [hl1] at h2; exact Option.some.inj h2
    have he2 : c.event2 = e1 := by rw [hl2] at h1; exact Option.some.inj h1
    rw [he1] at hcd1
    rw [he2] at hcd2
    have hs1 : s1' = s2 := Option.some.inj (hcd1.symm.trans hd2)
    have hs2 : s2' = s1 := Option.some.inj (hcd2.symm.trans hd1)
    rw [hs1] at hcp1
    rw [hs2] at hcp2
    have ht1 : t1' = t2 := Option.some.inj (hcp1.symm.trans hp2)
    have ht2 : t2' = t1 := Option.some.inj (hcp2.symm.trans hp1)
    rw [ht1, ht2] at hlt htd
    rw [natAbs_sub_comm] at hlt htd
    exact ⟨hlt, htd⟩

/-- C2: for two distinct selected ids with present records and parseable
dates, a conflict pairing them is emitted exactly when the absolute start
time difference, truncated to whole minutes, is below
EVENT_DURATION_MINUTES; every emitted conflict for the pair carries that
truncated difference as `time_diff_minutes`. The criterion is stated on the
absolute difference, hence symmetric in the two records. -/
theorem conflict_iff_time_diff (events : List WebEvent) (mons purs : List String)
    (a b : String) (e1 e2 : WebEvent) (s1 s2 : String) (t1 t2 : Int)
    (hab : a ≠ b) (ha : a ∈ mons ++ purs) (hb : b ∈ mons ++ purs)
    (h1 : eventMapLookup events a = some e1) (h2 : eventMapLookup events b = some e2)
    (hd1 : e1.date = some s1) (hd2 : e2.date = some s2)
    (hn1 : s1 ≠ "") (hn2 : s2 ≠ "")
    (hp1 : parseIso s1 = some t1) (hp2 : parseIso s2 = some t2) :
    ((∃ c ∈ check_conflicts events mons purs, conflictPairs c a b) ↔
       (t1 - t2).natAbs / 60 < EVENT_DURATION_MINUTES) ∧
    (∀ c ∈ check_conflicts events mons purs, conflictPairs c a b →
       c.time_diff_minutes = (t1 - t2).natAbs / 60) := by
  have hdiv : (t1 - t2).natAbs / 60 < EVENT_DURATION_MINUTES ↔
      (t1 - t2).natAbs < EVENT_DURATION_MINUTES * 60 :=
    Nat.div_lt_iff_lt_mul (by norm_num)
  constructor
  · constructor
    · rintro ⟨c, hc, hcp⟩
      exact hdiv.mpr (conflict_pair_data h1 h2 hd1 hd2 hp1 hp2 hc hcp).1
    · intro hlt
      have hlt' := hdiv.mp hlt
      rcases pairsOf_total hab ha hb with hpair | hpair
      · refine ⟨{ event1 := e1, event2 := e2, severity := severityOf purs a b,
                  time_diff_minutes := (t1 - t2).natAbs / 60 }, ?_, ?_⟩
        · unfold check_conflicts
          refine List.mem_flatMap.mpr ⟨(a, b), hpair, ?_⟩
          rw [checkPair_eval h1 h2 hd1 hd2 hn1 hn2 hp1 hp2, if_pos hlt']
          exact List.mem_singleton.mpr rfl
        · exact Or.inl ⟨eventMapLookup_id h1, eventMapLookup_id h2⟩
      · refine ⟨{ event1 := e2, event2 := e1, severity := severityOf purs b a,
                  time_diff_minutes := (t2 - t1).natAbs / 60 }, ?_, ?_⟩
        · unfold check_conflicts
          refine List.mem_flatMap.mpr ⟨(b, a), hpair, ?_⟩
          have hlt2 : (t2 - t1).natAbs < EVENT_DURATION_MINUTES * 60 := by
            rw [natAbs_sub_comm]
            exact hlt'
          rw [checkPair_eval h2 h1 hd2 hd1 hn2 hn1 hp2 hp1, if_pos hlt2]
          exact List.mem_singleton.mpr rfl
        · exact Or.inr ⟨eventMapLookup_id h2, eventMapLookup_id h1⟩
  · intro c hc hcp
    exact (conflict_pair_data h1 h2 hd1 hd2 hp1 hp2 hc hcp).2

/-! ## Severity lemmas -/

/-- Rank of a severity string under the ordering critical > warning > info. -/
def sevRank (s : String) : Nat :=
  if s = sCritical then 2 else if s = sWarning then 1 else 0

/-- Number of the two ids of a pair that lie in the purchased list. -/
def purchasedCount (purs : List String) (a b : String) : Nat :=
  (if purs.contains a then 1 else 0) + (if purs.contains b then 1 else 0)

theorem sevRank_severityOf (purs : List String) (a b : String) :
    sevRank (severityOf purs a b) = purchasedCount purs a b := by
  unfold severityOf purchasedCount
  cases hca : purs.contains a <;> cases hcb : purs.contains b <;>
    simp only [hca, hcb, Bool.false_and, Bool.true_and, Bool.and_false, Bool.and_true,
      Bool.false_or, Bool.true_or, Bool.or_false, Bool.or_true,
      Bool.false_eq_true, if_true, if_false] <;> decide

/-- C5: every emitted conflict's severity follows the priority classification
(critical when both ids purchased, warning when exactly one, info otherwise),
its rank equals the number of purchased ids in the pair, and therefore
severity is monotone in purchased-membership across emitted conflicts. -/
theorem conflict_severity_classification (events : List WebEvent)
    (mons purs : List String) :
    ∀ c ∈ check_conflicts events mons purs,
      c.severity = severityOf purs c.event1.id c.event2.id ∧
      sevRank c.severity = purchasedCount purs c.event1.id c.event2.id ∧
      ∀ c' ∈ check_conflicts events mons purs,
        purchasedCount purs c'.event1.id c'.event2.id ≤
          purchasedCount purs c.event1.id c.event2.id →
        sevRank c'.severity ≤ sevRank c.severity := by
  have key : ∀ c ∈ check_conflicts events mons purs,
      c.severity = severityOf purs c.event1.id c.event2.id := by
    intro c hc
    obtain ⟨p, _, hcp⟩ := mem_check_conflicts hc
    obtain ⟨hl1, hl2, hsev, _⟩ := mem_checkPair hcp
    rw [hsev, eventMapLookup_id hl1, eventMapLookup_id hl2]
  intro c hc
  refine ⟨key c hc, ?_, ?_⟩
  · rw [key c hc, sevRank_severityOf]
  · intro c' hc' hle
    rw [key c hc, key c' hc', sevRank_severityOf, sevRank_severityOf]
    exact hle

/-! ## Witness data for the overlap detector -/

/-- ISO date string used in detector witnesses. -/
def wDate1 : String := "2025-10-25T19:00:00"

/-- ISO date string 90 minutes after `wDate1`, used in detector witnesses. -/
def wDate2 : String := "2025-10-25T20:30:00"

/-- Concrete cached screening record used in detector witnesses. -/
def wConfA : WebEvent :=
  { id := "77/1", title := "Film A", date := some wDate1, status := sAvailable }

/-- Concrete cached screening record used in detector witnesses. -/
def wConfB : WebEvent :=
  { id := "88/2", title := "Film B", date := some wDate2, status := sSoldOut }

/-- The conflict the detector emits for `wConfA` and `wConfB` with `wConfB`
purchased. -/
def wConflictAB : Conflict :=
  { event1 := wConfA, event2 := wConfB, severity := sWarning,
    time_diff_minutes := 90 }

/-- Witness for C2: on two screenings 90 minutes apart the emitted conflict
carries the truncated minute difference of their parsed start times. -/
theorem conflict_iff_time_diff_witness :
    wConflictAB.time_diff_minutes = ((63897102000 - 63897107400 : Int)).natAbs / 60 := by
  have h := conflict_iff_time_diff [wConfA, wConfB] [wConfA.id] [wConfB.id]
    wConfA.id wConfB.id wConfA wConfB wDate1 wDate2 63897102000 63897107400
    (by decide) (by decide) (by decide) (by decide) (by decide) (by decide)
    (by decide) (by decide) (by decide) (by decide) (by decide)
  exact h.2 wConflictAB (by decide) (by decide)

/-- Witness for C5: the conflict between one monitored and one purchased
screening is classified by the severity formula and its rank counts the
purchased ids of the pair. -/
theorem conflict_severity_classification_witness :
    wConflictAB.severity
      = severityOf [wConfB.id] wConflictAB.event1.id wConflictAB.event2.id ∧
    sevRank wConflictAB.severity
      = purchasedCount [wConfB.id] wConflictAB.event1.id wConflictAB.event2.id := by
  have h := conflict_severity_classification [wConfA, wConfB] [wConfA.id] [wConfB.id]
    wConflictAB (by decide)
  exact ⟨h.1, h.2.1⟩

/-! ## Skip semantics of the overlap detector -/

/-- Failure condition under which the pair loop body hits a `continue`:
either id missing from the lookup, a missing or falsy date on either record,
or a date on either record that fails to parse. -/
def badPair (lookup : String → Option WebEvent) (x y : String) : Prop :=
  lookup x = none ∨ lookup y = none ∨
  (∃ e, lookup x = some e ∧ (e.date = none ∨ e.date = some "")) ∨
  (∃ e, lookup y = some e ∧ (e.date = none ∨ e.date = some "")) ∨
  (∃ e s, lookup x = some e ∧ e.date = some s ∧ parseIso s = none) ∨
  (∃ e s, lookup y = some e ∧ e.date = some s ∧ parseIso s = none)

/-- C6: the detector is total — it is the concatenation of the per-pair
results over all position pairs, and any pair whose record lookup, date, or
date parse fails contributes nothing while every other pair is still
processed. -/
theorem bad_pairs_skipped (events : List WebEvent) (mons purs : List String) :
    (∀ x y, badPair (eventMapLookup events) x y →
       checkPair (eventMapLookup events) purs x y = []) ∧
    check_conflicts events mons purs =
      (pairsOf (mons ++ purs)).flatMap
        (fun p => checkPair (eventMapLookup events) purs p.1 p.2) := by
  refine ⟨?_, rfl⟩
  intro x y hbad
  by_contra hne
  have hex : ∃ c, c ∈ checkPair (eventMapLookup events) purs x y := by
    rcases h : checkPair (eventMapLookup events) purs x y with _ | ⟨c, cs⟩
    · exact absurd h hne
    · exact ⟨c, h ▸ List.mem_cons_self c cs⟩
  obtain ⟨c, hc⟩ := hex
  obtain ⟨hl1, hl2, _, s1, s2, t1, t2, hcd1, hcd2, hn1, hn2, hcp1, hcp2, _, _⟩ :=
    mem_checkPair hc
  rcases hbad with h | h | ⟨e, he, hd⟩ | ⟨e, he, hd⟩ | ⟨e, s, he, hd, hp⟩ | ⟨e, s, he, hd, hp⟩
  · rw [h] at hl1
    cases hl1
  · rw [h] at hl2
    cases hl2
  · rw [he] at hl1
    rcases Option.some.inj hl1 with rfl
    rcases hd with hd | hd
    · rw [hd] at hcd1
      cases hcd1
    · rw [hd] at hcd1
      exact hn1 (Option.some.inj hcd1).symm
  · rw [he] at hl2
    rcases Option.some.inj hl2 with rfl
    rcases hd with hd | hd
    · rw [hd] at hcd2
      cases hcd2
    · rw [hd] at hcd2
      exact hn2 (Option.some.inj hcd2).symm
  · rw [he] at hl1
    rcases Option.some.inj hl1 with rfl
    rw [hd] at hcd1
    rcases Option.some.inj hcd1 with rfl
    rw [hp] at hcp1
    cases hcp1
  · rw [he] at hl2
    rcases Option.some.inj hl2 with rfl
    rw [hd] at hcd2
    rcases Option.some.inj hcd2 with rfl
    rw [hp] at hcp2
    cases hcp2

/-- Concrete cached record without a parsed date, used in the C6 witness. -/
def wNoDate : WebEvent :=
  { id := "99/9", title := "No Date", date := none, status := sUnknown }

/-- Witness for C6: a pair whose second record lacks a date is skipped. -/
theorem bad_pairs_skipped_witness :
    checkPair (eventMapLookup [wConfA, wNoDate]) [] wConfA.id wNoDate.id = [] :=
  (bad_pairs_skipped [wConfA, wNoDate] [wConfA.id, wNoDate.id] []).1 wConfA.id wNoDate.id
    (Or.inr (Or.inr (Or.inr (Or.inl ⟨wNoDate, by decide, Or.inl (by decide)⟩))))

/-! ## Duplicate selections and pair distinctness -/

/-- The self-conflict the detector emits when an id appears in both
selection lists. -/
def wSelfConflict : Conflict :=
  { event1 := wConfA, event2 := wConfA, severity := sCritical,
    time_diff_minutes := 0 }

/-- Counterexample for C3: with the same id in the monitored and purchased
lists, the detector pairs the id with itself and emits a self-conflict. -/
theorem self_conflict_on_duplicate_selection :
    check_conflicts [wConfA] [wConfA.id] [wConfA.id] = [wSelfConflict] ∧
    wSelfConflict.event1.id = wSelfConflict.event2.id :=
  ⟨by decide, rfl⟩

theorem pairsOf_ne_of_nodup {l : List String} (hnd : l.Nodup) :
    ∀ p ∈ pairsOf l, p.1 ≠ p.2 := by
  induction l with
  | nil =>
    intro p hp
    simp [pairsOf] at hp
  | cons x xs ih =>
    intro p hp
    rw [pairsOf, List.mem_append] at hp
    rcases hp with hp | hp
    · rcases List.mem_map.mp hp with ⟨y, hy, rfl⟩
      intro he
      have he' : x = y := he
      exact (List.nodup_cons.mp hnd).1 (he' ▸ hy)
    · exact ih (List.nodup_cons.mp hnd).2 p hp

theorem checkPair_length_le (lookup : String → Option WebEvent)
    (purs : List String) (x y : String) :
    (checkPair lookup purs x y).length ≤ 1 := by
  unfold checkPair
  repeat' split
  all_goals try (dsimp only []; split)
  all_goals simp

theorem checkPair_map_ids (events : List WebEvent) (purs : List String)
    (x y : String) :
    (checkPair (eventMapLookup events) purs x y).map
        (fun c => s(c.event1.id, c.event2.id)) = [] ∨
    (checkPair (eventMapLookup events) purs x y).map
        (fun c => s(c.event1.id, c.event2.id)) = [s(x, y)] := by
  rcases h : checkPair (eventMapLookup events) purs x y with _ | ⟨c, cs⟩
  · left
    rfl
  · right
    have hcs : cs = [] := by
      have hlen := checkPair_length_le (eventMapLookup events) purs x y
      rw [h] at hlen
      simpa using hlen
    subst hcs
    have hc : c ∈ checkPair (eventMapLookup events) purs x y :=
      h ▸ List.mem_cons_self c []
    obtain ⟨hl1, hl2, _⟩ := mem_checkPair hc
    rw [List.map_cons, List.map_nil, eventMapLookup_id hl1, eventMapLookup_id hl2]

theorem map_flatMap_sublist {α β γ : Type} (f : β → γ) (g : α → List β) (h : α → γ)
    (l : List α) (hg : ∀ a ∈ l, (g a).map f = [] ∨ (g a).map f = [h a]) :
    ((l.flatMap g).map f).Sublist (l.map h) := by
  induction l with
  | nil => simp
  | cons a as ih =>
    rw [List.flatMap_cons, List.map_append, List.map_cons]
    rcases hg a (List.mem_cons_self a as) with h0 | h1
    · rw [h0, List.nil_append]
      exact (ih (fun a ha => hg a (List.mem_cons_of_mem _ ha))).cons _
    · rw [h1, List.singleton_append]
      exact (ih (fun a ha => hg a (List.mem_cons_of_mem _ ha))).cons₂ _

theorem pairsOf_sym2_nodup {l : List String} (hnd : l.Nodup) :
    ((pairsOf l).map (fun p => s(p.1, p.2))).Nodup := by
  induction l with
  | nil => simp [pairsOf]
  | cons x xs ih =>
    obtain ⟨hx, hxs⟩ := List.nodup_cons.mp hnd
    rw [pairsOf, List.map_append]
    refine List.Nodup.append ?_ (ih hxs) ?_
    · rw [List.map_map]
      refine List.Nodup.map_on ?_ hxs
      intro y1 h1 y2 h2 he
      simp only [Function.comp] at he
      rcases Sym2.eq_iff.mp he with ⟨_, h⟩ | ⟨hxy2, hy1x⟩
      · exact h
      · exact (hx (hxy2 ▸ h2)).elim
    · intro z hz1 hz2
      rcases List.mem_map.mp hz1 with ⟨q, hq, rfl⟩
      rcases List.mem_map.mp hq with ⟨y, hy, rfl⟩
      rcases List.mem_map.mp hz2 with ⟨p, hp, heq⟩
      have hsub := pairsOf_sub hp
      rcases Sym2.eq_iff.mp heq.symm with ⟨hp1, _⟩ | ⟨hp2, _⟩
      · have hxp : x = p.1 := hp1
        exact hx (hxp ▸ hsub.1)
      · have hxp : x = p.2 := hp2
        exact hx (hxp ▸ hsub.2)

/-- C3 amended: when no id occurs twice across the concatenated monitored and
purchased lists, no emitted conflict pairs an id with itself and at most one
conflict is emitted per unordered pair (the unordered id pairs of the output
are pairwise distinct). As stated for arbitrary inputs the claim is false:
an id present in both lists is paired with itself
(`self_conflict_on_duplicate_selection`). -/
theorem nodup_selection_conflicts_pair_distinct (events : List WebEvent)
    (mons purs : List String) (hnd : (mons ++ purs).Nodup) :
    (∀ c ∈ check_conflicts events mons purs, c.event1.id ≠ c.event2.id) ∧
    ((check_conflicts events mons purs).map
        (fun c => s(c.event1.id, c.event2.id))).Nodup := by
  constructor
  · intro c hc
    obtain ⟨p, hp, hcp⟩ := mem_check_conflicts hc
    obtain ⟨hl1, hl2, _⟩ := mem_checkPair hcp
    rw [eventMapLookup_id hl1, eventMapLookup_id hl2]
    exact pairsOf_ne_of_nodup hnd p hp
  · have hsub : ((check_conflicts events mons purs).map
        (fun c => s(c.event1.id, c.event2.id))).Sublist
        ((pairsOf (mons ++ purs)).map (fun p => s(p.1, p.2))) :=
      map_flatMap_sublist _ _ _ _
        (fun p _ => checkPair_map_ids events purs p.1 p.2)
    exact (pairsOf_sym2_nodup hnd).sublist hsub

/-- Witness for the amended C3: with disjoint singleton selections the
emitted conflict pairs two distinct ids. -/
theorem nodup_selection_conflicts_pair_distinct_witness :
    wConflictAB.event1.id ≠ wConflictAB.event2.id :=
  (nodup_selection_conflicts_pair_distinct [wConfA, wConfB] [wConfA.id] [wConfB.id]
    (by decide)).1 wConflictAB (by decide)

/-! ## Cycle frame lemmas -/

theorem lookupState_cons (a : String) (b : StoredState)
    (ps : List (String × StoredState)) (k : String) :
    lookupState ((a, b) :: ps) k = if a == k then some b else lookupState ps k := by
  by_cases h : (a == k) = true <;> simp [lookupState, List.find?_cons, h]

theorem lookupState_setState (l : List (String × StoredState)) (k : String)
    (v : StoredState) (k' : String) :
    lookupState (setState l k v) k' = if k' = k then some v else lookupState l k' := by
  induction l with
  | nil =>
    rw [show setState [] k v = [(k, v)] from rfl, lookupState_cons]
    by_cases h : k' = k
    · subst h
      simp
    · have hk : (k == k') = false := beq_eq_false_iff_ne.mpr (Ne.symm h)
      simp [hk, h]
  | cons p ps ih =>
    obtain ⟨a, b⟩ := p
    rw [show setState ((a, b) :: ps) k v
        = if a == k then (k, v) :: ps else (a, b) :: setState ps k v from rfl]
    by_cases hak : (a == k) = true
    · rw [if_pos hak, lookupState_cons, lookupState_cons]
      have ha : a = k := eq_of_beq hak
      subst ha
      by_cases h : k' = a
      · subst h
        simp
      · have h1 : (a == k') = false := beq_eq_false_iff_ne.mpr (Ne.symm h)
        simp [h1, h]
    · rw [if_neg hak, lookupState_cons, lookupState_cons, ih]
      by_cases hak' : (a == k') = true
      · have hkk : ¬ k' = k := fun hh =>
          hak (beq_iff_eq.mpr ((eq_of_beq hak').trans hh))
        simp [hak', hkk]
      · simp [hak']

theorem runEvents_frame (notifyAll : Bool) (now : Int) (iso : String)
    (evs : List Event) :
    ∀ states : List (String × StoredState),
      (∀ i, i ∉ evs.map Event.id →
        lookupState (runEvents notifyAll now iso states evs).1 i = lookupState states i) ∧
      (∀ i, (lookupState states i).isSome = true →
        (lookupState (runEvents notifyAll now iso states evs).1 i).isSome = true) := by
  induction evs with
  | nil =>
    intro states
    constructor <;> intro i <;> simp [runEvents]
  | cons e rest ih =>
    intro states
    constructor
    · intro i hi
      have hie : i ≠ e.id := by
        intro h
        exact hi (by simp [h])
      have hirest : i ∉ rest.map Event.id := by
        intro h
        exact hi (by simp [h])
      rw [runEvents]
      cases hw : (processEvent notifyAll now iso (lookupState states e.id) e).2 with
      | none =>
        simp only [hw]
        exact (ih states).1 i hirest
      | some v =>
        simp only [hw]
        rw [(ih (setState states e.id v)).1 i hirest, lookupState_setState,
          if_neg hie]
    · intro i hi
      rw [runEvents]
      cases hw : (processEvent notifyAll now iso (lookupState states e.id) e).2 with
      | none =>
        simp only [hw]
        exact (ih states).2 i hi
      | some v =>
        simp only [hw]
        refine (ih (setState states e.id v)).2 i ?_
        rw [lookupState_setState]
        by_cases h : i = e.id
        · simp [h]
        · rw [if_neg h]
          exact hi

/-- C8: a monitoring cycle leaves every stored entry whose id is not among
the cycle's monitored-matching records unchanged, and never deletes an
entry: any id stored before the cycle is still stored after it. -/
theorem cycle_frame_unselected (mons : List String) (notifyAll : Bool)
    (states0 : List (String × StoredState)) (allEvents : List Event)
    (now : Int) (iso : String) :
    (∀ i, i ∉ (allEvents.filter (shouldMonitorEvent mons)).map Event.id →
       lookupState (monitorCycle mons notifyAll states0 allEvents now iso).states i
         = lookupState states0 i) ∧
    (∀ i, (lookupState states0 i).isSome = true →
       (lookupState (monitorCycle mons notifyAll states0 allEvents now iso).states i).isSome
         = true) := by
  unfold monitorCycle
  by_cases he : allEvents.isEmpty = true
  · simp [he]
  · constructor
    · intro i hi
      simp only [he, Bool.false_eq_true, if_false]
      exact (runEvents_frame notifyAll now iso
        (allEvents.filter (shouldMonitorEvent mons)) states0).1 i hi
    · intro i hi
      simp only [he, Bool.false_eq_true, if_false]
      exact (runEvents_frame notifyAll now iso
        (allEvents.filter (shouldMonitorEvent mons)) states0).2 i hi

/-- Id not selected by the witness cycle. -/
def wUnrelatedId : String := "zz"

/-- Monitored-events entry used by the witness cycle. -/
def wMonKey : String := "10/2"

/-- Stored mapping used by the witness cycle. -/
def wStates0 : List (String × StoredState) := [(wUnrelatedId, wPrevSold)]

/-- Witness for C8: a concrete cycle that processes one matching record
leaves the unrelated stored entry unchanged and still present. -/
theorem cycle_frame_unselected_witness :
    lookupState (monitorCycle [wMonKey] false wStates0 [wAvail] 0 wMonKey).states
        wUnrelatedId
      = lookupState wStates0 wUnrelatedId ∧
    (lookupState (monitorCycle [wMonKey] false wStates0 [wAvail] 0 wMonKey).states
        wUnrelatedId).isSome = true := by
  have h := cycle_frame_unselected [wMonKey] false wStates0 [wAvail] 0 wMonKey
  exact ⟨h.1 wUnrelatedId (by decide), h.2 wUnrelatedId (by decide)⟩

/-! ## Persistence round-trip lemmas -/

theorem toList_mk (l : List Char) : (String.mk l).toList = l := rfl

theorem mk_toList (s : String) : String.mk s.toList = s := by
  cases s
  rfl

theorem hexVal_hexDigitChar : ∀ n < 16, hexVal (hexDigitChar n) = some n := by decide

theorem parseStrBody_escapeChar (c : Char) (rest : List Char) :
    parseStrBody (escapeChar c ++ rest)
      = (parseStrBody rest).map (fun p => (c :: p.1, p.2)) := by
  by_cases h1 : c = '"'
  · subst h1
    rw [show escapeChar '"' ++ rest = '\\' :: '"' :: rest from rfl, parseStrBody.eq_def]
    simp
  by_cases h2 : c = '\\'
  · subst h2
    rw [show escapeChar '\\' ++ rest = '\\' :: '\\' :: rest from rfl, parseStrBody.eq_def]
    simp
  by_cases h3 : c.toNat < 32
  · have e1 : hexVal (hexDigitChar (c.toNat / 16)) = some (c.toNat / 16) :=
      hexVal_hexDigitChar _ (by omega)
    have e2 : hexVal (hexDigitChar (c.toNat % 16)) = some (c.toNat % 16) :=
      hexVal_hexDigitChar _ (Nat.mod_lt _ (by norm_num))
    have h0 : hexVal '0' = some 0 := by decide
    rw [show escapeChar c ++ rest
        = '\\' :: 'u' :: '0' :: '0' :: hexDigitChar (c.toNat / 16) ::
          hexDigitChar (c.toNat % 16) :: rest by
      simp [escapeChar, h1, h2, h3]]
    rw [parseStrBody.eq_def]
    simp [h0, e1, e2]
    simp only [show c.toNat / 16 * 16 + c.toNat % 16 = c.toNat from by omega,
      Char.ofNat_toNat]
  · rw [show escapeChar c ++ rest = c :: rest by simp [escapeChar, h1, h2, h3]]
    rw [parseStrBody.eq_def]
    simp [h1, h2]

theorem parseStrBody_escapeList (cs : List Char) :
    ∀ rest : List Char, parseStrBody (escapeList cs ('"' :: rest)) = some (cs, rest) := by
  induction cs with
  | nil =>
    intro rest
    rw [show escapeList [] ('"' :: rest) = '"' :: rest from rfl, parseStrBody.eq_def]
    simp
  | cons c cs ih =>
    intro rest
    rw [show escapeList (c :: cs) ('"' :: rest)
        = escapeChar c ++ escapeList cs ('"' :: rest) from rfl]
    rw [parseStrBody_escapeChar, ih]
    rfl

theorem parseQuoted_quote (s : String) (rest : List Char) :
    parseQuoted (quoteStrD s rest) = some (s, rest) := by
  rw [show quoteStrD s rest = '"' :: escapeList s.toList ('"' :: rest) from rfl]
  simp [parseQuoted, parseStrBody_escapeList, mk_toList]

theorem expectChar_cons (c : Char) (rest : List Char) :
    expectChar c (c :: rest) = some rest := by
  simp [expectChar]

theorem parseKey_quote (key : String) (rest : List Char) :
    parseKey key (quoteStrD key (':' :: rest)) = some rest := by
  simp [parseKey, parseQuoted_quote, expectChar_cons]

theorem expectLit_self : ∀ lit rest : List Char, expectLit lit (lit ++ rest) = some rest := by
  intro lit
  induction lit with
  | nil => intro rest; rfl
  | cons c cs ih => intro rest; simp [expectLit, ih]

theorem parseBool_dump (b : Bool) (rest : List Char) :
    parseBool (dumpBoolD b rest) = some (b, rest) := by
  cases b
  · rw [show dumpBoolD false rest = litFalse ++ rest from rfl]
    have hfail : expectLit litTrue (litFalse ++ rest) = none := by
      simp [litTrue, litFalse, expectLit]
    simp [parseBool, hfail, expectLit_self]
  · rw [show dumpBoolD true rest = litTrue ++ rest from rfl]
    simp [parseBool, expectLit_self]

theorem parseEntry_dump (e : PersistEntry) (rest : List Char) :
    parseEntry (dumpEntryD e rest) = some (e, rest) := by
  rw [show dumpEntryD e rest
      = '\x7b' :: quoteStrD kStatus (':' :: quoteStrD e.status
        (',' :: quoteStrD kLastChecked (':' :: quoteStrD e.last_checked
        (',' :: quoteStrD kMarkedPassed (':' :: dumpBoolD e.marked_passed
        ('\x7d' :: rest)))))) from rfl]
  simp [parseEntry, expectChar_cons, parseKey_quote, parseQuoted_quote, parseBool_dump]

theorem dumpPairsD_single {α : Type} (dumpVal : α → List Char → List Char)
    (k : String) (v : α) (rest : List Char) :
    dumpPairsD dumpVal [(k, v)] rest
      = quoteStrD k (':' :: dumpVal v ('\x7d' :: rest)) := rfl

theorem dumpPairsD_cons2 {α : Type} (dumpVal : α → List Char → List Char)
    (k : String) (v : α) (q : String × α) (qs : List (String × α)) (rest : List Char) :
    dumpPairsD dumpVal ((k, v) :: q :: qs) rest
      = quoteStrD k (':' :: dumpVal v (',' :: dumpPairsD dumpVal (q :: qs) rest)) := rfl

theorem dumpPairsD_cons_shape {α : Type} (dumpVal : α → List Char → List Char)
    (k : String) (v : α) (ps : List (String × α)) (rest : List Char) :
    ∃ tail, dumpPairsD dumpVal ((k, v) :: ps) rest = '"' :: tail := by
  cases ps <;> exact ⟨_, rfl⟩

theorem parsePairs_dump {α : Type} (parseVal : List Char → Option (α × List Char))
    (dumpVal : α → List Char → List Char)
    (hval : ∀ v rest, parseVal (dumpVal v rest) = some (v, rest)) :
    ∀ (ps : List (String × α)) (fuel : Nat) (rest : List Char), ps ≠ [] →
      ps.length ≤ fuel →
      parsePairs parseVal fuel (dumpPairsD dumpVal ps rest) = some (ps, rest) := by
  intro ps
  induction ps with
  | nil =>
    intro fuel rest h _
    exact absurd rfl h
  | cons p ps ih =>
    intro fuel rest _ hlen
    obtain ⟨k, v⟩ := p
    cases fuel with
    | zero => simp at hlen
    | succ f =>
      cases ps with
      | nil =>
        rw [dumpPairsD_single]
        simp [parsePairs, parseQuoted_quote, expectChar_cons, hval]
      | cons q qs =>
        rw [dumpPairsD_cons2]
        have hlen' : (q :: qs).length ≤ f := by
          simp only [List.length_cons] at hlen ⊢
          omega
        have hrec := ih f rest (by simp) hlen'
        simp [parsePairs, parseQuoted_quote, expectChar_cons, hval, hrec]

theorem parseObj_dump {α : Type} (parseVal : List Char → Option (α × List Char))
    (dumpVal : α → List Char → List Char)
    (hval : ∀ v rest, parseVal (dumpVal v rest) = some (v, rest)) :
    ∀ (l : List (String × α)) (fuel : Nat) (rest : List Char), l.length ≤ fuel →
      parseObj parseVal fuel (dumpObjD dumpVal l rest) = some (l, rest) := by
  intro l fuel rest hlen
  cases l with
  | nil =>
    rw [show dumpObjD dumpVal [] rest = '\x7b' :: '\x7d' :: rest from rfl]
    simp [parseObj, expectChar_cons]
  | cons p ps =>
    obtain ⟨k, v⟩ := p
    obtain ⟨tail, htail⟩ := dumpPairsD_cons_shape dumpVal k v ps rest
    rw [show dumpObjD dumpVal ((k, v) :: ps) rest
        = '\x7b' :: dumpPairsD dumpVal ((k, v) :: ps) rest from rfl, htail]
    simp only [parseObj, expectChar_cons, Option.bind_eq_bind, Option.some_bind]
    rw [show (if '"' = '\x7d' then some (([] : List (String × α)), tail)
        else parsePairs parseVal fuel ('"' :: tail))
        = parsePairs parseVal fuel ('"' :: tail) from by simp]
    rw [← htail]
    exact parsePairs_dump parseVal dumpVal hval ((k, v) :: ps) fuel rest (by simp) hlen

theorem parseStateData_dump (sd : StateData) (fuel : Nat) (rest : List Char)
    (h1 : sd.states.length ≤ fuel) (h2 : sd.dates.length ≤ fuel) :
    parseStateData fuel (dumpStateD sd rest) = some (sd, rest) := by
  have ho1 := parseObj_dump parseEntry dumpEntryD parseEntry_dump sd.states fuel
    (',' :: quoteStrD kDates (':' :: dumpObjD quoteStrD sd.dates ('\x7d' :: rest))) h1
  have ho2 := parseObj_dump parseQuoted quoteStrD parseQuoted_quote sd.dates fuel
    ('\x7d' :: rest) h2
  rw [show dumpStateD sd rest
      = '\x7b' :: quoteStrD kStates (':' :: dumpObjD dumpEntryD sd.states
        (',' :: quoteStrD kDates (':' :: dumpObjD quoteStrD sd.dates
        ('\x7d' :: rest)))) from rfl]
  simp [parseStateData, expectChar_cons, parseKey_quote, ho1, ho2]

theorem escapeList_len (cs : List Char) :
    ∀ rest : List Char, rest.length ≤ (escapeList cs rest).length := by
  induction cs with
  | nil =>
    intro rest
    simp [escapeList]
  | cons c cs ih =>
    intro rest
    rw [show escapeList (c :: cs) rest = escapeChar c ++ escapeList cs rest from rfl]
    rw [List.length_append]
    have := ih rest
    omega

theorem quoteStrD_len (s : String) (rest : List Char) :
    rest.length + 2 ≤ (quoteStrD s rest).length := by
  rw [show quoteStrD s rest = '"' :: escapeList s.toList ('"' :: rest) from rfl]
  have h := escapeList_len s.toList ('"' :: rest)
  simp only [List.length_cons] at h ⊢
  omega

theorem dumpBoolD_len (b : Bool) (rest : List Char) :
    rest.length ≤ (dumpBoolD b rest).length := by
  cases b <;> simp [dumpBoolD, litTrue, litFalse] <;> omega

theorem dumpEntryD_len (e : PersistEntry) (rest : List Char) :
    rest.length ≤ (dumpEntryD e rest).length := by
  rw [show dumpEntryD e rest
      = '\x7b' :: quoteStrD kStatus (':' :: quoteStrD e.status
        (',' :: quoteStrD kLastChecked (':' :: quoteStrD e.last_checked
        (',' :: quoteStrD kMarkedPassed (':' :: dumpBoolD e.marked_passed
        ('\x7d' :: rest)))))) from rfl]
  have b1 := dumpBoolD_len e.marked_passed ('\x7d' :: rest)
  have q1 := quoteStrD_len kMarkedPassed
    (':' :: dumpBoolD e.marked_passed ('\x7d' :: rest))
  have q2 := quoteStrD_len e.last_checked
    (',' :: quoteStrD kMarkedPassed
      (':' :: dumpBoolD e.marked_passed ('\x7d' :: rest)))
  have q3 := quoteStrD_len kLastChecked
    (':' :: quoteStrD e.last_checked
      (',' :: quoteStrD kMarkedPassed
        (':' :: dumpBoolD e.marked_passed ('\x7d' :: rest))))
  have q4 := quoteStrD_len e.status
    (',' :: quoteStrD kLastChecked
      (':' :: quoteStrD e.last_checked
        (',' :: quoteStrD kMarkedPassed
          (':' :: dumpBoolD e.marked_passed ('\x7d' :: rest)))))
  have q5 := quoteStrD_len kStatus
    (':' :: quoteStrD e.status
      (',' :: quoteStrD kLastChecked
        (':' :: quoteStrD e.last_checked
          (',' :: quoteStrD kMarkedPassed
            (':' :: dumpBoolD e.marked_passed ('\x7d' :: rest))))))
  simp only [List.length_cons] at b1 q1 q2 q3 q4 q5 ⊢
  omega

theorem dumpPairsD_count {α : Type} (dumpVal : α → List Char → List Char)
    (hdv : ∀ v rest, rest.length ≤ (dumpVal v rest).length) :
    ∀ (ps : List (String × α)) (rest : List Char),
      ps.length ≤ (dumpPairsD dumpVal ps rest).length ∧
      rest.length ≤ (dumpPairsD dumpVal ps rest).length := by
  intro ps
  induction ps with
  | nil =>
    intro rest
    constructor <;> simp [dumpPairsD]
  | cons p ps ih =>
    intro rest
    obtain ⟨k, v⟩ := p
    cases ps with
    | nil =>
      rw [dumpPairsD_single]
      have hq := quoteStrD_len k (':' :: dumpVal v ('\x7d' :: rest))
      have hv := hdv v ('\x7d' :: rest)
      simp only [List.length_cons, List.length_nil] at hq hv ⊢
      omega
    | cons q qs =>
      rw [dumpPairsD_cons2]
      have hrec := ih rest
      have hq := quoteStrD_len k
        (':' :: dumpVal v (',' :: dumpPairsD dumpVal (q :: qs) rest))
      have hv := hdv v (',' :: dumpPairsD dumpVal (q :: qs) rest)
      simp only [List.length_cons] at hrec hq hv ⊢
      omega

theorem dumpStateD_len_states (sd : StateData) (rest : List Char) :
    sd.states.length ≤ (dumpStateD sd rest).length := by
  rw [show dumpStateD sd rest
      = '\x7b' :: quoteStrD kStates (':' :: dumpObjD dumpEntryD sd.states
        (',' :: quoteStrD kDates (':' :: dumpObjD quoteStrD sd.dates
        ('\x7d' :: rest)))) from rfl]
  rw [show dumpObjD dumpEntryD sd.states
      (',' :: quoteStrD kDates (':' :: dumpObjD quoteStrD sd.dates ('\x7d' :: rest)))
      = '\x7b' :: dumpPairsD dumpEntryD sd.states
        (',' :: quoteStrD kDates (':' :: dumpObjD quoteStrD sd.dates ('\x7d' :: rest)))
      from rfl]
  have hc := (dumpPairsD_count dumpEntryD dumpEntryD_len sd.states
    (',' :: quoteStrD kDates (':' :: dumpObjD quoteStrD sd.dates ('\x7d' :: rest)))).1
  have hq := quoteStrD_len kStates
    (':' :: ('\x7b' :: dumpPairsD dumpEntryD sd.states
      (',' :: quoteStrD kDates (':' :: dumpObjD quoteStrD sd.dates ('\x7d' :: rest)))))
  simp only [List.length_cons] at hc hq ⊢
  omega

theorem dumpStateD_len_dates (sd : StateData) (rest : List Char) :
    sd.dates.length ≤ (dumpStateD sd rest).length := by
  rw [show dumpStateD sd rest
      = '\x7b' :: quoteStrD kStates (':' :: dumpObjD dumpEntryD sd.states
        (',' :: quoteStrD kDates (':' :: dumpObjD quoteStrD sd.dates
        ('\x7d' :: rest)))) from rfl]
  rw [show dumpObjD dumpEntryD sd.states
      (',' :: quoteStrD kDates (':' :: dumpObjD quoteStrD sd.dates ('\x7d' :: rest)))
      = '\x7b' :: dumpPairsD dumpEntryD sd.states
        (',' :: quoteStrD kDates (':' :: dumpObjD quoteStrD sd.dates ('\x7d' :: rest)))
      from rfl]
  rw [show dumpObjD quoteStrD sd.dates ('\x7d' :: rest)
      = '\x7b' :: dumpPairsD quoteStrD sd.dates ('\x7d' :: rest) from rfl]
  have hcd := (dumpPairsD_count quoteStrD
    (fun v r => le_trans (by omega) (quoteStrD_len v r)) sd.dates ('\x7d' :: rest)).1
  have hrest := (dumpPairsD_count dumpEntryD dumpEntryD_len sd.states
    (',' :: quoteStrD kDates
      (':' :: ('\x7b' :: dumpPairsD quoteStrD sd.dates ('\x7d' :: rest))))).2
  have hqd := quoteStrD_len kDates
    (':' :: ('\x7b' :: dumpPairsD quoteStrD sd.dates ('\x7d' :: rest)))
  have hqs := quoteStrD_len kStates
    (':' :: ('\x7b' :: dumpPairsD dumpEntryD sd.states
      (',' :: quoteStrD kDates
        (':' :: ('\x7b' :: dumpPairsD quoteStrD sd.dates ('\x7d' :: rest))))))
  simp only [List.length_cons] at hcd hrest hqd hqs ⊢
  omega

/-- C9: saving a state mapping with `save_state` and reloading it with
`load_state` returns an identical mapping. The mapping keys are distinct, as
they are in the Python dictionaries being serialized. -/
theorem state_roundtrip (sd : StateData)
    (_hnd1 : (sd.states.map Prod.fst).Nodup) (_hnd2 : (sd.dates.map Prod.fst).Nodup) :
    loadStateStr (saveStateStr sd) = sd := by
  unfold loadStateStr saveStateStr
  rw [toList_mk]
  rw [parseStateData_dump sd (dumpStateD sd []).length []
    (dumpStateD_len_states sd []) (dumpStateD_len_dates sd [])]

/-- Screening id used in the persistence witness. -/
def wId : String := "12345/67890"

/-- Concrete persisted state used in the persistence witness. -/
def wStateData : StateData :=
  { states := [(wId, { status := sAvailable, last_checked := wDate1,
                       marked_passed := false })],
    dates := [(wId, wDate1)] }

/-- Witness for C9: a concrete one-entry state mapping survives the
save/load round trip unchanged. -/
theorem state_roundtrip_witness :
    loadStateStr (saveStateStr wStateData) = wStateData :=
  state_roundtrip wStateData (by decide) (by decide)

end ScadMonitor
